import Mathlib

/-!
Verification of the batch automation engine of the fpl-power-meter-api
repository, shallowly embedded from
`src/railway-deploy/src/services/batch.js` (the batch scheduler and the
per-address automation flows) and `src/src/config/database.js` (the
file-based job/result store used by the Railway deployment).

Browser interactions are nondeterministic, so each run is parameterised
by an *environment* describing what the page interactions produced:
which text (if any) the status-readout selectors found, whether a
required step raised, whether the "Not the right address?" shortcut link
was present, and whether the inter-row settle delay rejected.  The pure
control flow of the JavaScript — its try/catch structure, branch
conditions, database writes, progress events and the `needsFullFlow`
flag — is translated literally.  Timestamps are abstracted (the
`status_captured_at` column becomes a Boolean "a capture timestamp was
recorded"), and progress events keep the fields the specification talks
about (`type`, `processed`, `total`, `message`).
-/

namespace FplMeter

/-- The sentinel used by the flows when a status field could not be
extracted (batch.js line 1592: `meterStatus || "Not found"`). -/
def notFoundSentinel : String := "Not found"

/-- JavaScript `s || d` on strings: the only falsy string is `""`. -/
def jsOr (s d : String) : String := if s = "" then d else s

/-- JavaScript `s || null` on an extracted string: `""` becomes null. -/
def strOrNull (s : String) : Option String := if s = "" then none else some s

/-- JavaScript `unit || null` on an optional string field. -/
def optOrNull : Option String → Option String
  | none => none
  | some s => if s = "" then none else some s

/-- `meterStatus || "Not found"` (batch.js lines 1591-1594). -/
def orNotFound (s : String) : String := jsOr s notFoundSentinel

/-- Environment of the Step-14 status readout (batch.js lines 1548-1594):
what each extraction attempt produced.  `none` models "label/element not
visible or `innerText` raised"; `some t` models a successful extraction of
text `t` (possibly empty). -/
structure StatusPage where
  meterText : Option String
  propSpecificText : Option String
  propFallbackText : Option String
deriving DecidableEq, Repr

/-- Meter column of Step 14: `meterStatus` stays `""` unless the
"Meter Status" label was found and `innerText` of the following element
succeeded (batch.js lines 1552-1564). -/
def extractMeterStatus (p : StatusPage) : String := p.meterText.getD ""

/-- Property column of Step 14: the dedicated `p.nee-fpl-property-status`
selector is tried first, then the "Property Status" label fallback
(batch.js lines 1566-1586). -/
def extractPropertyStatus (p : StatusPage) : String :=
  (p.propSpecificText.orElse fun _ => p.propFallbackText).getD ""

/-- The `{meterStatus, propertyStatus}` object returned by the flows. -/
structure StatusResult where
  meterStatus : String
  propertyStatus : String
deriving DecidableEq, Repr

/-- Step 14 of `performPostLoginFlow` (batch.js lines 1548-1595): read both
status fields independently and default each to the sentinel. -/
def readStatuses (p : StatusPage) : StatusResult :=
  { meterStatus := orNotFound (extractMeterStatus p)
    propertyStatus := orNotFound (extractPropertyStatus p) }

/-- What a cold (full) flow run did: either a required step outside any
`try` raised before Step 14 (e.g. the Continue click at batch.js line 884
or the initial `waitForLoadState` at line 653), or the run reached the
status readout on some page. -/
inductive ColdOutcome
  | throwBefore (msg : String)
  | reach (page : StatusPage)
deriving DecidableEq, Repr

/-- `performPostLoginFlow` (batch.js lines 651-1595): every intermediate
step is soft-failed inside its own `try`, but the unguarded required steps
can raise; a run that reaches Step 14 returns the readout. -/
def performPostLoginFlow : ColdOutcome → Except String StatusResult
  | .throwBefore m => .error m
  | .reach p => .ok (readStatuses p)

/-- What the body of the warm flow did after the "Not the right address?"
link was clicked: reached the repeat Step-14 readout, or raised inside the
inner `try` (batch.js lines 1645-2033). -/
inductive WarmInner
  | reach (page : StatusPage)
  | raised (msg : String)
deriving DecidableEq, Repr

/-- Environment of one `processNextAddress` call (batch.js lines
1597-2041): the shortcut link was found (with the inner body's outcome),
or it was absent (falling back to the full flow with the given cold
outcome), or the link search/click itself raised. -/
inductive WarmOutcome
  | linkFound (inner : WarmInner)
  | linkAbsent (cold : ColdOutcome)
  | linkSearchRaised (msg : String)
deriving DecidableEq, Repr

/-- A JavaScript `try { x } catch (e) { h(e) }` whose body either returns
or raises. -/
def tryCatch (x : Except String StatusResult) (h : String → StatusResult) : StatusResult :=
  match x with
  | .ok r => r
  | .error e => h e

/-- The `{meterStatus: "Not found", propertyStatus: "Not found"}` pair
returned by both catch handlers of `processNextAddress`. -/
def sentinelResult : StatusResult :=
  { meterStatus := notFoundSentinel, propertyStatus := notFoundSentinel }

/-- The inner `try` body of `processNextAddress` (batch.js lines
1645-2026): address re-entry ending in the repeat Step-14 readout. -/
def warmInnerRun : WarmInner → Except String StatusResult
  | .reach p => .ok (readStatuses p)
  | .raised m => .error m

/-- The outer `try` body of `processNextAddress` (batch.js lines
1600-2033): click the link and run the guarded inner body, or fall back to
`performPostLoginFlow` when the link is absent (line 1637). -/
def processNextAddressBody : WarmOutcome → Except String StatusResult
  | .linkFound inner => .ok (tryCatch (warmInnerRun inner) fun _ => sentinelResult)
  | .linkAbsent cold => performPostLoginFlow cold
  | .linkSearchRaised m => .error m

/-- `processNextAddress` (batch.js lines 1597-2041): the outer catch (line
2034) converts any escaping exception into the sentinel pair. -/
def processNextAddress (w : WarmOutcome) : StatusResult :=
  tryCatch (processNextAddressBody w) fun _ => sentinelResult

/-! ## The file-based job/result store (`src/src/config/database.js`) -/

/-- One record of the `jobs` map (`database.js` line 76): the value stored
under `jobId`.  The `created_at` timestamp is abstracted away. -/
structure JobRec where
  jobId : String
  status : String
  total : Nat
  processed : Nat
deriving DecidableEq, Repr

/-- One record of the `results` map (`database.js` lines 80-85), keyed in
the map by its auto-incremented `id`.  `statusCapturedAt` is `true` when a
capture timestamp was recorded and `false` when `null` was stored. -/
structure StoredResult where
  id : Nat
  jobId : String
  rowIndex : Nat
  address : Option String
  unit : Option String
  meterStatus : Option String
  propertyStatus : Option String
  error : Option String
  statusCapturedAt : Bool
deriving DecidableEq, Repr

/-- `jobs.get` on the association list modelling the `jobs` `Map`. -/
def jobsGet : List (String × JobRec) → String → Option JobRec
  | [], _ => none
  | (k, v) :: rest, key => if k = key then some v else jobsGet rest key

/-- `jobs.set` on the association list modelling the `jobs` `Map`. -/
def jobsSet : List (String × JobRec) → String → JobRec → List (String × JobRec)
  | [], key, v => [(key, v)]
  | (k, w) :: rest, key, v =>
      if k = key then (key, v) :: rest else (k, w) :: jobsSet rest key v

/-- The in-process store of `src/src/config/database.js`: the `jobs` map,
the `results` map in ascending-id order, and the `nextResultId` counter. -/
structure Db where
  jobs : List (String × JobRec)
  results : List StoredResult
  nextResultId : Nat
deriving DecidableEq, Repr

/-- A freshly created store (`database.js` line 21 / 42). -/
def emptyDb : Db := { jobs := [], results := [], nextResultId := 1 }

def dbGetJob (db : Db) (jobId : String) : Option JobRec := jobsGet db.jobs jobId

/-- The `INSERT INTO jobs` branch (`database.js` lines 74-78):
`jobs.set(jobId, {jobId, createdAt, status, total, processed})`. -/
def insertJob (db : Db) (jobId status : String) (total processed : Nat) : Db :=
  { db with jobs := jobsSet db.jobs jobId ⟨jobId, status, total, processed⟩ }

/-- The `INSERT OR REPLACE INTO results` branch (`database.js` lines
79-88): the record is stored under a fresh `nextResultId()` key, so it is
always appended — the map is *not* keyed by `(jobId, rowIndex)`. -/
def insertOrReplaceResult (db : Db) (jobId : String) (rowIndex : Nat)
    (address unit meterStatus propertyStatus error : Option String)
    (statusCapturedAt : Bool) : Db :=
  { db with
    results := db.results ++
      [⟨db.nextResultId, jobId, rowIndex, address, unit, meterStatus,
        propertyStatus, error, statusCapturedAt⟩]
    nextResultId := db.nextResultId + 1 }

/-- The `UPDATE jobs SET processed` branch (`database.js` lines 89-97). -/
def updateJobProcessed (db : Db) (processed : Nat) (jobId : String) : Db :=
  match jobsGet db.jobs jobId with
  | some job => { db with jobs := jobsSet db.jobs jobId { job with processed := processed } }
  | none => db

/-- The `UPDATE jobs SET status` branch (`database.js` lines 98-107). -/
def updateJobStatus (db : Db) (status : String) (jobId : String) : Db :=
  match jobsGet db.jobs jobId with
  | some job => { db with jobs := jobsSet db.jobs jobId { job with status := status } }
  | none => db

/-! ## The batch scheduler (`runBatchLookup`, batch.js lines 240-449) -/

/-- The hard per-submission row cap (batch.js line 244). -/
def MAX_BATCH_SIZE : Nat := 50

/-- The message of the error thrown for oversized submissions
(batch.js line 246). -/
def batchTooLargeMsg : String :=
  "Batch size too large. Maximum 50 addresses allowed. Please split your CSV into smaller files."

/-- A progress event, restricted to the fields the specification's
Progress Channel contract mentions; `none` in `processed`/`total`/
`message` means the pushed object had no such field. -/
structure Event where
  type : String
  processed : Option Nat
  total : Option Nat
  message : Option String
deriving DecidableEq, Repr

/-- `${unit ? ` (Unit: ${unit})` : ''}` — the unit suffix of the progress
messages; a missing or empty unit contributes nothing. -/
def unitSuffix : Option String → String
  | none => ""
  | some s => if s = "" then "" else " (Unit: " ++ s ++ ")"

/-- The `job_started` event (batch.js lines 258-266). -/
def jobStartedEvent (n : Nat) : Event :=
  { type := "job_started", processed := some 0, total := some n
    message := some s!"Starting batch processing of {n} addresses in chunks of 25" }

/-- The `job_completed` event of the normal loop exit (batch.js lines
399-407). -/
def jobCompletedEvent (n p : Nat) : Event :=
  { type := "job_completed", processed := some p, total := some n
    message := some s!"Batch processing completed! Processed {p}/{n} addresses successfully." }

/-- The `job_completed` event of the catch handler when some rows were
processed before the fatal error (batch.js lines 418-426). -/
def jobCompletedLateEvent (n p : Nat) : Event :=
  { type := "job_completed", processed := some p, total := some n
    message :=
      some s!"Batch processing completed with {p}/{n} addresses processed. Some addresses may have failed." }

/-- The `job_failed` event of the catch handler when no rows were
processed (batch.js lines 432-441). -/
def jobFailedEvent (n p : Nat) (msg : String) : Event :=
  { type := "job_failed", processed := some p, total := some n
    message := some ("Batch processing failed: " ++ msg) }

/-- How one row attempt ended, mirroring the scheduler's three branches:
the result check succeeded (batch.js line 314), both fields were the
sentinel (line 338), or an exception was caught (line 361). -/
inductive Outcome
  | success (r : StatusResult)
  | noStatus
  | exn (msg : String)
deriving DecidableEq, Repr

def isSuccessB : Outcome → Bool
  | .success _ => true
  | _ => false

/-- Environment of one loop iteration: either
`buildAddressAndUnitFromRow` raised outside the row-level `try`
(batch.js line 283), which escapes to the batch-level catch, or the row
ran with the given normalized address/unit, inter-row-delay outcome
(`some msg` models `page.waitForTimeout` rejecting at line 292, possible
only for `i > 0`), and the outcomes the cold/warm flows would have
produced. -/
inductive RowEnv
  | fatal (msg : String)
  | row (address : String) (unit : Option String) (delayFail : Option String)
      (cold : ColdOutcome) (warm : WarmOutcome)
deriving DecidableEq, Repr

/-- Lines 291-308 of the row `try` block: the inter-row delay (rows after
the first only), then `performPostLoginFlow` when `needsFullFlow` is set,
else `processNextAddress` (which never raises). -/
def rowAttempt (i : Nat) (delayFail : Option String) (needsFullFlow : Bool)
    (cold : ColdOutcome) (warm : WarmOutcome) : Except String StatusResult :=
  match (if 0 < i then delayFail else none) with
  | some m => .error m
  | none =>
      if needsFullFlow then performPostLoginFlow cold
      else .ok (processNextAddress warm)

/-- The result check at batch.js line 314 (`result` is always truthy when
no exception was raised): success iff either field differs from the
sentinel. -/
def classify (attempt : Except String StatusResult) : Outcome :=
  match attempt with
  | .ok r =>
      if r.meterStatus ≠ notFoundSentinel ∨ r.propertyStatus ≠ notFoundSentinel then
        .success r
      else .noStatus
  | .error m => .exn m

/-- The result row written for one attempt (batch.js lines 319-320,
342-343 and 371-372): statuses and a capture timestamp on success, an
error and null statuses otherwise; on exception the address falls back to
`Row ${i+1}` and the message to `"Unknown error"` when empty. -/
def rowInsert (jobId : String) (i : Nat) (address : String) (unit : Option String)
    (o : Outcome) (db : Db) : Db :=
  match o with
  | .success r =>
      insertOrReplaceResult db jobId i (some address) (optOrNull unit)
        (strOrNull r.meterStatus) (strOrNull r.propertyStatus) none true
  | .noStatus =>
      insertOrReplaceResult db jobId i (some address) (optOrNull unit)
        none none (some "No status found") false
  | .exn m =>
      insertOrReplaceResult db jobId i
        (some (jsOr address ("Row " ++ toString (i + 1)))) (optOrNull unit)
        none none (some (jsOr m "Unknown error")) false

/-- The per-row progress event (batch.js lines 324-335, 347-357 and
375-385); all three carry `processed: i + 1`, the total and a message. -/
def rowEvent (n i : Nat) (address : String) (unit : Option String) (o : Outcome) : Event :=
  match o with
  | .success _ =>
      { type := "address_completed", processed := some (i + 1), total := some n
        message := some (s!"Completed {i+1}/{n}: " ++ address ++ unitSuffix unit) }
  | .noStatus =>
      { type := "address_failed", processed := some (i + 1), total := some n
        message :=
          some (s!"Failed {i+1}/{n}: " ++ address ++ unitSuffix unit ++ " - No status found") }
  | .exn m =>
      { type := "address_error", processed := some (i + 1), total := some n
        message :=
          some (s!"Error {i+1}/{n}: " ++ jsOr address ("Row " ++ toString (i + 1)) ++
            unitSuffix (optOrNull unit) ++ " - " ++ jsOr m "Unknown error") }

/-- Observation of one loop iteration: the row index, the value of
`needsFullFlow` when the row was dispatched (`true` = cold entry, `false`
= warm entry), and how the attempt ended. -/
structure RowLog where
  index : Nat
  dispatchedCold : Bool
  outcome : Outcome
deriving DecidableEq, Repr

/-- The mutable state of the batch loop, together with ghost observation
lists: the events pushed so far, one `RowLog` per finished iteration, and
a snapshot of the job record after every write to the `jobs` table. -/
structure LoopState where
  db : Db
  processed : Nat
  needsFullFlow : Bool
  events : List Event
  logs : List RowLog
  jobTrace : List JobRec
deriving Repr

/-- One iteration of the row loop (batch.js lines 281-393): run the
attempt, write the result row, push the event, flip `needsFullFlow`
(`false` exactly on success), increment `processed` and persist it. -/
def processRow (jobId : String) (n i : Nat) (address : String) (unit : Option String)
    (delayFail : Option String) (cold : ColdOutcome) (warm : WarmOutcome)
    (st : LoopState) : LoopState :=
  let o := classify (rowAttempt i delayFail st.needsFullFlow cold warm)
  let db2 := updateJobProcessed (rowInsert jobId i address unit o st.db) (st.processed + 1) jobId
  { db := db2
    processed := st.processed + 1
    needsFullFlow := ! isSuccessB o
    events := st.events ++ [rowEvent n i address unit o]
    logs := st.logs ++ [⟨i, st.needsFullFlow, o⟩]
    jobTrace := st.jobTrace ++ (dbGetJob db2 jobId).toList }

/-- The row loop (batch.js lines 281-394): processes environments in
order; a `fatal` environment models an exception escaping the row-level
`try`, aborting the loop with the error message. -/
def runRows (jobId : String) (n : Nat) :
    List RowEnv → Nat → LoopState → LoopState × Option String
  | [], _, st => (st, none)
  | .fatal m :: _, _, st => (st, some m)
  | .row a u d c w :: rest, i, st =>
      runRows jobId n rest (i + 1) (processRow jobId n i a u d c w st)

/-- The job record created at submission (batch.js line 254). -/
def startRec (jobId : String) (n : Nat) : JobRec := ⟨jobId, "running", n, 0⟩

/-- The loop state right after job creation and the `job_started` push
(batch.js lines 254-275). -/
def initState (jobId : String) (n : Nat) (db0 : Db) : LoopState :=
  { db := insertJob db0 jobId "running" n 0
    processed := 0
    needsFullFlow := true
    events := [jobStartedEvent n]
    logs := []
    jobTrace := [startRec jobId n] }

/-- Everything observable about one `runBatchLookup` call: the value
returned (or error thrown) by the synchronous part, the final store, the
pushed events, the per-row logs, the job-record snapshots, and whether a
browser session was launched / closed by the `finally`. -/
structure RunOutput where
  submit : Except String (String × Nat)
  db : Db
  events : List Event
  logs : List RowLog
  jobTrace : List JobRec
  sessionOpened : Bool
  sessionReleased : Bool
deriving Repr

/-- The common tail of every non-rejected run (batch.js lines 395-445):
write the terminal status, push the terminal event, and close the browser
in the `finally`; a last job-record snapshot is appended to the trace. -/
def finishRun (jobId : String) (n : Nat) (st : LoopState) (status : String)
    (evt : Event) : RunOutput :=
  { submit := .ok (jobId, n)
    db := updateJobStatus st.db status jobId
    events := st.events ++ [evt]
    logs := st.logs
    jobTrace := st.jobTrace ++ (dbGetJob (updateJobStatus st.db status jobId) jobId).toList
    sessionOpened := true
    sessionReleased := true }

/-- `runBatchLookup` (batch.js lines 240-449).  The cap check rejects
oversized submissions before anything else (no job record, no event, no
browser); otherwise the job record is created `running` with
`processed = 0`, `job_started` is pushed, and the async block logs in
(`login = some msg` models `safeLoginFlow` raising), runs the loop, and
ends through the normal exit (`status = completed`, batch.js line 396) or
the catch (`completed` when `processed > 0`, else `failed`, lines
408-442). -/
def runBatchLookup (jobId : String) (login : Option String) (envs : List RowEnv)
    (db0 : Db) : RunOutput :=
  if envs.length > MAX_BATCH_SIZE then
    { submit := .error batchTooLargeMsg, db := db0, events := [], logs := []
      jobTrace := [], sessionOpened := false, sessionReleased := false }
  else
    match login with
    | some msg =>
        finishRun jobId envs.length (initState jobId envs.length db0) "failed"
          (jobFailedEvent envs.length 0 msg)
    | none =>
        match runRows jobId envs.length envs 0 (initState jobId envs.length db0) with
        | (st, none) =>
            finishRun jobId envs.length st "completed"
              (jobCompletedEvent envs.length st.processed)
        | (st, some msg) =>
            if 0 < st.processed then
              finishRun jobId envs.length st "completed"
                (jobCompletedLateEvent envs.length st.processed)
            else
              finishRun jobId envs.length st "failed"
                (jobFailedEvent envs.length st.processed msg)

/-- The synchronous prefix of `runBatchLookupWithJobId` (batch.js lines
26-49): the cap check, then the first event pushed to the progress
callback — type `batch_started`, with total, batch position and a message
but *no* `processed` field. -/
def runBatchLookupWithJobIdStart (nRows batchIndex totalBatches : Nat) :
    Except String Event :=
  if nRows > MAX_BATCH_SIZE then .error batchTooLargeMsg
  else
    .ok { type := "batch_started", processed := none, total := some nRows
          message :=
            some s!"Starting batch {batchIndex}/{totalBatches} with {nRows} addresses" }

/-- What the session setup did after `chromium.launch` succeeded:
`browser.newContext()` and `context.newPage()` (batch.js lines 13-14) ran
*outside* the `try`/`finally` of lines 15-23, so either both succeeded or
one of them rejected — and a rejection there escapes `runSingleLookup`
with no `finally` to close the launched browser. -/
inductive SetupOutcome
  | ready
  | raised (msg : String)
deriving DecidableEq, Repr

/-- Everything observable about a `runSingleLookup` call. -/
structure SingleOutput where
  result : Except String (String × Option String × StatusResult)
  db : Db
  sessionOpened : Bool
  sessionReleased : Bool
deriving Repr

/-- `runSingleLookup` (batch.js lines 8-24): a dedicated browser is
launched (line 12), then context and page are created outside the
`try`/`finally` (lines 13-14) — if one of those rejects, the error
propagates and the launched browser is never closed.  Otherwise login and
the cold flow run inside the `try` and the `finally` (line 22) closes the
browser both when a result is returned and when an error propagates.  The
job/result store is never touched on any path (only screenshot artifacts
are, outside the store). -/
def runSingleLookup (address : String) (unit : Option String) (setup : SetupOutcome)
    (login : Option String) (cold : ColdOutcome) (db0 : Db) : SingleOutput :=
  match setup with
  | .raised m =>
      { result := .error m
        db := db0
        sessionOpened := true
        sessionReleased := false }
  | .ready =>
      { result :=
          match login with
          | some m => .error m
          | none =>
              match performPostLoginFlow cold with
              | .ok r => .ok (address, unit, r)
              | .error m => .error m
        db := db0
        sessionOpened := true
        sessionReleased := true }

/-! ## Specification predicates -/

/-- The `error` XOR statuses shape of a written result row. -/
def wellFormedResult (r : StoredResult) : Prop :=
  (r.error = none ∧ r.meterStatus.isSome = true ∧ r.propertyStatus.isSome = true) ∨
  (r.error.isSome = true ∧ r.meterStatus = none ∧ r.propertyStatus = none)

instance (r : StoredResult) : Decidable (wellFormedResult r) := by
  unfold wellFormedResult; infer_instance

/-- The event types of the specification's Progress Channel contract. -/
def allowedEventType (t : String) : Prop :=
  t = "job_started" ∨ t = "address_completed" ∨ t = "address_failed" ∨
  t = "address_error" ∨ t = "job_completed" ∨ t = "job_failed"

instance (t : String) : Decidable (allowedEventType t) := by
  unfold allowedEventType; infer_instance

/-- One event of the contract: an allowed type carrying a processed count,
a total and a message. -/
def eventOk (e : Event) : Prop :=
  allowedEventType e.type ∧ e.processed.isSome = true ∧ e.total.isSome = true ∧
  e.message.isSome = true

instance (e : Event) : Decidable (eventOk e) := by
  unfold eventOk; infer_instance

/-- One step of the job-record history: the status is unchanged unless it
was still `running`, and `processed` either stays or increments by one. -/
def traceStep (a b : JobRec) : Prop :=
  (a.status = b.status ∨ a.status = "running") ∧
  (b.processed = a.processed ∨ b.processed = a.processed + 1)

def statusOk (s : String) : Prop := s = "running" ∨ s = "completed" ∨ s = "failed"

/-- The value `needsFullFlow` must hold before the next iteration, as a
function of the finished iterations: `true` initially, and after any row
`true` exactly when the row was not a success. -/
def nextNeeds (logs : List RowLog) : Bool :=
  match logs.getLast? with
  | none => true
  | some l => ! isSuccessB l.outcome

/-- Adjacent rows: the later row is dispatched cold exactly when the
earlier one was not a success (so warm ↔ the previous row succeeded). -/
def logStep (a b : RowLog) : Prop := b.dispatchedCold = ! isSuccessB a.outcome

/-- A `success` outcome always carries a non-sentinel field (the branch
condition at batch.js line 314). -/
def successNonSentinel (l : RowLog) : Prop :=
  ∀ r, l.outcome = Outcome.success r →
    (r.meterStatus ≠ notFoundSentinel ∨ r.propertyStatus ≠ notFoundSentinel)

/-- Everything the claims assert about one non-rejected batch run. -/
structure BatchOk (jobId : String) (n : Nat) (db0 : Db) (out : RunOutput) : Prop where
  traceHead : out.jobTrace.head? = some (startRec jobId n)
  traceChain : List.Chain' traceStep out.jobTrace
  traceAll : ∀ j ∈ out.jobTrace,
    j.jobId = jobId ∧ j.total = n ∧ j.processed ≤ n ∧ statusOk j.status
  finalJob : ∃ jfin, dbGetJob out.db jobId = some jfin ∧ jfin.total = n ∧
    (jfin.status = "completed" ∨ jfin.status = "failed") ∧
    (0 < jfin.processed → jfin.status = "completed") ∧
    (jfin.status = "failed" → jfin.processed = 0)
  opened : out.sessionOpened = true
  released : out.sessionReleased = true
  eventsOk : ∀ e ∈ out.events, eventOk e
  resultsOk : ∀ x ∈ out.db.results, x ∈ db0.results ∨ wellFormedResult x
  logsHead : ∀ l, out.logs.head? = some l → l.dispatchedCold = true
  logsChain : List.Chain' logStep out.logs
  logsSuccess : ∀ l ∈ out.logs, successNonSentinel l

/-! ## Flow-level lemmas -/

theorem orNotFound_ne_empty (s : String) : orNotFound s ≠ "" := by
  unfold orNotFound jsOr notFoundSentinel
  split <;> simp_all

theorem readStatuses_meter_ne_empty (p : StatusPage) :
    (readStatuses p).meterStatus ≠ "" := orNotFound_ne_empty _

theorem readStatuses_property_ne_empty (p : StatusPage) :
    (readStatuses p).propertyStatus ≠ "" := orNotFound_ne_empty _

/-- Any warm run produces either the sentinel pair or an honest readout. -/
theorem processNextAddress_shape (w : WarmOutcome) :
    processNextAddress w = sentinelResult ∨
      ∃ p, processNextAddress w = readStatuses p := by
  cases w with
  | linkFound inner =>
      cases inner with
      | reach p => exact Or.inr ⟨p, rfl⟩
      | raised m => exact Or.inl rfl
  | linkAbsent cold =>
      cases cold with
      | throwBefore m => exact Or.inl rfl
      | reach p => exact Or.inr ⟨p, rfl⟩
  | linkSearchRaised m => exact Or.inl rfl

theorem sentinelResult_meter_ne_empty : sentinelResult.meterStatus ≠ "" := by
  unfold sentinelResult notFoundSentinel; simp

theorem sentinelResult_property_ne_empty : sentinelResult.propertyStatus ≠ "" := by
  unfold sentinelResult notFoundSentinel; simp

theorem processNextAddress_meter_ne_empty (w : WarmOutcome) :
    (processNextAddress w).meterStatus ≠ "" := by
  rcases processNextAddress_shape w with h | ⟨p, h⟩
  · rw [h]; exact sentinelResult_meter_ne_empty
  · rw [h]; exact readStatuses_meter_ne_empty p

theorem processNextAddress_property_ne_empty (w : WarmOutcome) :
    (processNextAddress w).propertyStatus ≠ "" := by
  rcases processNextAddress_shape w with h | ⟨p, h⟩
  · rw [h]; exact sentinelResult_property_ne_empty
  · rw [h]; exact readStatuses_property_ne_empty p

theorem performPostLoginFlow_ok_ne_empty (c : ColdOutcome) (r : StatusResult)
    (h : performPostLoginFlow c = .ok r) :
    r.meterStatus ≠ "" ∧ r.propertyStatus ≠ "" := by
  cases c with
  | throwBefore m => simp [performPostLoginFlow] at h
  | reach p =>
      simp [performPostLoginFlow] at h
      rw [← h]
      exact ⟨readStatuses_meter_ne_empty p, readStatuses_property_ne_empty p⟩

/-! ## Store lemmas -/

theorem jobsGet_jobsSet_self (l : List (String × JobRec)) (k : String) (v : JobRec) :
    jobsGet (jobsSet l k v) k = some v := by
  induction l with
  | nil => simp [jobsSet, jobsGet]
  | cons hd tl ih =>
      obtain ⟨k', v'⟩ := hd
      by_cases h : k' = k
      · simp [jobsSet, h, jobsGet]
      · simp [jobsSet, h, jobsGet, ih]

theorem dbGetJob_insertJob_self (db : Db) (j s : String) (t p : Nat) :
    dbGetJob (insertJob db j s t p) j = some ⟨j, s, t, p⟩ := by
  simp [dbGetJob, insertJob, jobsGet_jobsSet_self]

theorem rowInsert_jobs (jobId : String) (i : Nat) (a : String) (u : Option String)
    (o : Outcome) (db : Db) : (rowInsert jobId i a u o db).jobs = db.jobs := by
  cases o <;> rfl

theorem dbGetJob_rowInsert (jobId : String) (i : Nat) (a : String) (u : Option String)
    (o : Outcome) (db : Db) (j : String) :
    dbGetJob (rowInsert jobId i a u o db) j = dbGetJob db j := by
  unfold dbGetJob
  rw [rowInsert_jobs]

theorem updateJobProcessed_results (db : Db) (p : Nat) (j : String) :
    (updateJobProcessed db p j).results = db.results := by
  unfold updateJobProcessed
  cases jobsGet db.jobs j <;> rfl

theorem updateJobStatus_results (db : Db) (s j : String) :
    (updateJobStatus db s j).results = db.results := by
  unfold updateJobStatus
  cases jobsGet db.jobs j <;> rfl

theorem dbGetJob_updateJobProcessed (db : Db) (p : Nat) (j : String) (job : JobRec)
    (h : dbGetJob db j = some job) :
    dbGetJob (updateJobProcessed db p j) j = some { job with processed := p } := by
  unfold dbGetJob at h
  unfold updateJobProcessed
  rw [h]
  simp [dbGetJob, jobsGet_jobsSet_self]

theorem dbGetJob_updateJobStatus (db : Db) (s j : String) (job : JobRec)
    (h : dbGetJob db j = some job) :
    dbGetJob (updateJobStatus db s j) j = some { job with status := s } := by
  unfold dbGetJob at h
  unfold updateJobStatus
  rw [h]
  simp [dbGetJob, jobsGet_jobsSet_self]

/-! ## Classification lemmas -/

theorem classify_eq_success (e : Except String StatusResult) (r : StatusResult)
    (h : classify e = Outcome.success r) :
    e = Except.ok r ∧
      (r.meterStatus ≠ notFoundSentinel ∨ r.propertyStatus ≠ notFoundSentinel) := by
  cases e with
  | error m => simp [classify] at h
  | ok r' =>
      by_cases hc : r'.meterStatus ≠ notFoundSentinel ∨ r'.propertyStatus ≠ notFoundSentinel
      · have hcl : classify (Except.ok r') = Outcome.success r' := by
          simp only [classify]
          rw [if_pos hc]
        rw [hcl] at h
        injection h with h'
        subst h'
        exact ⟨rfl, hc⟩
      · have hcl : classify (Except.ok r') = Outcome.noStatus := by
          simp only [classify]
          rw [if_neg hc]
        rw [hcl] at h
        simp at h

theorem rowAttempt_ok_ne_empty (i : Nat) (d : Option String) (b : Bool)
    (c : ColdOutcome) (w : WarmOutcome) (r : StatusResult)
    (h : rowAttempt i d b c w = .ok r) :
    r.meterStatus ≠ "" ∧ r.propertyStatus ≠ "" := by
  unfold rowAttempt at h
  cases hd : (if 0 < i then d else none) with
  | some m => rw [hd] at h; simp at h
  | none =>
      rw [hd] at h
      cases b with
      | true =>
          simp only [if_pos] at h
          exact performPostLoginFlow_ok_ne_empty c r h
      | false =>
          simp at h
          rw [← h]
          exact ⟨processNextAddress_meter_ne_empty w, processNextAddress_property_ne_empty w⟩

/-! ## Result-row and event well-formedness -/

theorem strOrNull_isSome (s : String) (h : s ≠ "") : (strOrNull s).isSome = true := by
  unfold strOrNull
  rw [if_neg h]
  rfl

theorem rowInsert_wellFormed (jobId : String) (i : Nat) (a : String) (u : Option String)
    (o : Outcome) (db : Db)
    (hok : ∀ r, o = Outcome.success r → r.meterStatus ≠ "" ∧ r.propertyStatus ≠ "") :
    ∀ x ∈ (rowInsert jobId i a u o db).results, x ∈ db.results ∨ wellFormedResult x := by
  intro x hx
  cases o with
  | success r =>
      simp [rowInsert, insertOrReplaceResult] at hx
      rcases hx with hx | hx
      · exact Or.inl hx
      · right
        obtain ⟨hm, hp⟩ := hok r rfl
        subst hx
        exact Or.inl ⟨rfl, strOrNull_isSome _ hm, strOrNull_isSome _ hp⟩
  | noStatus =>
      simp [rowInsert, insertOrReplaceResult] at hx
      rcases hx with hx | hx
      · exact Or.inl hx
      · right; subst hx; exact Or.inr ⟨rfl, rfl, rfl⟩
  | exn m =>
      simp [rowInsert, insertOrReplaceResult] at hx
      rcases hx with hx | hx
      · exact Or.inl hx
      · right; subst hx; exact Or.inr ⟨rfl, rfl, rfl⟩

theorem rowEvent_ok (n i : Nat) (a : String) (u : Option String) (o : Outcome) :
    eventOk (rowEvent n i a u o) := by
  cases o <;> simp [rowEvent, eventOk, allowedEventType]

theorem jobStartedEvent_ok (n : Nat) : eventOk (jobStartedEvent n) := by
  simp [jobStartedEvent, eventOk, allowedEventType]

theorem jobCompletedEvent_ok (n p : Nat) : eventOk (jobCompletedEvent n p) := by
  simp [jobCompletedEvent, eventOk, allowedEventType]

theorem jobCompletedLateEvent_ok (n p : Nat) : eventOk (jobCompletedLateEvent n p) := by
  simp [jobCompletedLateEvent, eventOk, allowedEventType]

theorem jobFailedEvent_ok (n p : Nat) (m : String) : eventOk (jobFailedEvent n p m) := by
  simp [jobFailedEvent, eventOk, allowedEventType]

theorem head?_append_left {α : Type} (l l' : List α) (x : α) (h : l.head? = some x) :
    (l ++ l').head? = some x := by
  cases l with
  | nil => simp at h
  | cons a t => simpa using h

/-! ## Loop invariants -/

theorem runRows_events (envs : List RowEnv) :
    ∀ (jobId : String) (n i : Nat) (st st' : LoopState) (fz : Option String),
      runRows jobId n envs i st = (st', fz) →
      (∀ e ∈ st.events, eventOk e) → ∀ e ∈ st'.events, eventOk e := by
  induction envs with
  | nil =>
      intro jobId n i st st' fz h hv
      simp [runRows] at h
      rw [← h.1]
      exact hv
  | cons env rest ih =>
      intro jobId n i st st' fz h hv
      cases env with
      | fatal m =>
          simp [runRows] at h
          rw [← h.1]
          exact hv
      | row a u d c w =>
          simp only [runRows] at h
          refine ih jobId n (i + 1) _ st' fz h ?_
          intro e he
          simp [processRow] at he
          rcases he with he | he
          · exact hv e he
          · subst he
            exact rowEvent_ok n i a u _

theorem runRows_results (envs : List RowEnv) :
    ∀ (jobId : String) (n i : Nat) (st st' : LoopState) (fz : Option String)
      (P : StoredResult → Prop),
      runRows jobId n envs i st = (st', fz) →
      (∀ x, wellFormedResult x → P x) →
      (∀ x ∈ st.db.results, P x) → ∀ x ∈ st'.db.results, P x := by
  induction envs with
  | nil =>
      intro jobId n i st st' fz P h hwf hv
      simp [runRows] at h
      rw [← h.1]
      exact hv
  | cons env rest ih =>
      intro jobId n i st st' fz P h hwf hv
      cases env with
      | fatal m =>
          simp [runRows] at h
          rw [← h.1]
          exact hv
      | row a u d c w =>
          simp only [runRows] at h
          refine ih jobId n (i + 1) _ st' fz P h hwf ?_
          intro x hx
          have hres : (processRow jobId n i a u d c w st).db.results =
              (rowInsert jobId i a u
                (classify (rowAttempt i d st.needsFullFlow c w)) st.db).results := by
            simp [processRow, updateJobProcessed_results]
          rw [hres] at hx
          have hok : ∀ r, classify (rowAttempt i d st.needsFullFlow c w) = Outcome.success r →
              r.meterStatus ≠ "" ∧ r.propertyStatus ≠ "" := by
            intro r hr
            obtain ⟨heq, _⟩ := classify_eq_success _ _ hr
            exact rowAttempt_ok_ne_empty i d _ c w r heq
          rcases rowInsert_wellFormed jobId i a u _ st.db hok x hx with hmem | hwfx
          · exact hv x hmem
          · exact hwf x hwfx

theorem runRows_logs (envs : List RowEnv) :
    ∀ (jobId : String) (n i : Nat) (st st' : LoopState) (fz : Option String),
      runRows jobId n envs i st = (st', fz) →
      st.needsFullFlow = nextNeeds st.logs →
      List.Chain' logStep st.logs →
      (∀ l, st.logs.head? = some l → l.dispatchedCold = true) →
      (∀ l ∈ st.logs, successNonSentinel l) →
      (st'.needsFullFlow = nextNeeds st'.logs ∧
        List.Chain' logStep st'.logs ∧
        (∀ l, st'.logs.head? = some l → l.dispatchedCold = true) ∧
        (∀ l ∈ st'.logs, successNonSentinel l)) := by
  induction envs with
  | nil =>
      intro jobId n i st st' fz h h1 h2 h3 h4
      simp [runRows] at h
      rw [← h.1]
      exact ⟨h1, h2, h3, h4⟩
  | cons env rest ih =>
      intro jobId n i st st' fz h h1 h2 h3 h4
      cases env with
      | fatal m =>
          simp [runRows] at h
          rw [← h.1]
          exact ⟨h1, h2, h3, h4⟩
      | row a u d c w =>
          simp only [runRows] at h
          refine ih jobId n (i + 1) _ st' fz h ?_ ?_ ?_ ?_
          · simp [processRow, nextNeeds, List.getLast?_concat]
          · have hlog : (processRow jobId n i a u d c w st).logs =
                st.logs ++ [⟨i, st.needsFullFlow,
                  classify (rowAttempt i d st.needsFullFlow c w)⟩] := by
              simp [processRow]
            rw [hlog, List.chain'_append]
            refine ⟨h2, List.chain'_singleton _, ?_⟩
            intro x hx y hy
            simp at hy
            subst hy
            unfold logStep
            simp only []
            rw [h1]
            unfold nextNeeds
            rw [hx]
          · intro l hl
            have hlog : (processRow jobId n i a u d c w st).logs =
                st.logs ++ [⟨i, st.needsFullFlow,
                  classify (rowAttempt i d st.needsFullFlow c w)⟩] := by
              simp [processRow]
            rw [hlog] at hl
            cases hsl : st.logs with
            | nil =>
                rw [hsl] at hl
                simp at hl
                subst hl
                rw [h1, hsl]
                rfl
            | cons l0 t =>
                rw [hsl] at hl
                simp at hl
                subst hl
                exact h3 l0 (by rw [hsl]; rfl)
          · intro l hl
            simp [processRow] at hl
            rcases hl with hl | hl
            · exact h4 l hl
            · subst hl
              intro r hr
              exact (classify_eq_success _ _ hr).2

theorem runRows_trace (envs : List RowEnv) :
    ∀ (jobId : String) (n i : Nat) (st st' : LoopState) (fz : Option String),
      runRows jobId n envs i st = (st', fz) →
      dbGetJob st.db jobId = some ⟨jobId, "running", n, st.processed⟩ →
      st.processed + envs.length ≤ n →
      st.jobTrace.getLast? = some ⟨jobId, "running", n, st.processed⟩ →
      List.Chain' traceStep st.jobTrace →
      st.jobTrace.head? = some (startRec jobId n) →
      (∀ j ∈ st.jobTrace, j.jobId = jobId ∧ j.total = n ∧ j.processed ≤ n ∧ statusOk j.status) →
      (dbGetJob st'.db jobId = some ⟨jobId, "running", n, st'.processed⟩ ∧
        st'.processed ≤ n ∧
        st'.jobTrace.getLast? = some ⟨jobId, "running", n, st'.processed⟩ ∧
        List.Chain' traceStep st'.jobTrace ∧
        st'.jobTrace.head? = some (startRec jobId n) ∧
        (∀ j ∈ st'.jobTrace,
          j.jobId = jobId ∧ j.total = n ∧ j.processed ≤ n ∧ statusOk j.status)) := by
  induction envs with
  | nil =>
      intro jobId n i st st' fz h hjob hcount hlast hchain hhead hall
      simp [runRows] at h
      rw [← h.1]
      simp at hcount
      exact ⟨hjob, hcount, hlast, hchain, hhead, hall⟩
  | cons env rest ih =>
      intro jobId n i st st' fz h hjob hcount hlast hchain hhead hall
      cases env with
      | fatal m =>
          simp [runRows] at h
          rw [← h.1]
          exact ⟨hjob, by omega, hlast, hchain, hhead, hall⟩
      | row a u d c w =>
          simp only [runRows] at h
          have hjob2 : dbGetJob (processRow jobId n i a u d c w st).db jobId =
              some ⟨jobId, "running", n, st.processed + 1⟩ := by
            have h1 : dbGetJob (rowInsert jobId i a u
                (classify (rowAttempt i d st.needsFullFlow c w)) st.db) jobId =
                some ⟨jobId, "running", n, st.processed⟩ := by
              rw [dbGetJob_rowInsert]; exact hjob
            have h2 := dbGetJob_updateJobProcessed _ (st.processed + 1) jobId _ h1
            simpa [processRow] using h2
          have htr : (processRow jobId n i a u d c w st).jobTrace =
              st.jobTrace ++ [⟨jobId, "running", n, st.processed + 1⟩] := by
            have h2 : dbGetJob (processRow jobId n i a u d c w st).db jobId =
                some ⟨jobId, "running", n, st.processed + 1⟩ := hjob2
            simp only [processRow] at h2 ⊢
            rw [h2]
            rfl
          have hpr : (processRow jobId n i a u d c w st).processed = st.processed + 1 := rfl
          refine ih jobId n (i + 1) _ st' fz h ?_ ?_ ?_ ?_ ?_ ?_
          · rw [hjob2, hpr]
          · rw [hpr]; simp at hcount ⊢; omega
          · rw [htr, hpr, List.getLast?_concat]
          · rw [htr, List.chain'_append]
            refine ⟨hchain, List.chain'_singleton _, ?_⟩
            intro x hx y hy
            simp at hy
            subst hy
            rw [hlast] at hx
            simp at hx
            subst hx
            exact ⟨Or.inl rfl, Or.inr rfl⟩
          · rw [htr]
            exact head?_append_left _ _ _ hhead
          · rw [htr]
            intro j hj
            simp at hj
            rcases hj with hj | hj
            · exact hall j hj
            · subst hj
              refine ⟨rfl, rfl, by simp at hcount ⊢; omega, Or.inl rfl⟩

/-! ## The master specification of a non-rejected batch run -/

theorem finishOk (jobId : String) (n : Nat) (db0 : Db) (st : LoopState) (S : String)
    (E : Event)
    (hS : S = "completed" ∨ S = "failed")
    (hcompl : 0 < st.processed → S = "completed")
    (hfail : S = "failed" → st.processed = 0)
    (hjob : dbGetJob st.db jobId = some ⟨jobId, "running", n, st.processed⟩)
    (hp : st.processed ≤ n)
    (hlast : st.jobTrace.getLast? = some ⟨jobId, "running", n, st.processed⟩)
    (hchain : List.Chain' traceStep st.jobTrace)
    (hhead : st.jobTrace.head? = some (startRec jobId n))
    (hall : ∀ j ∈ st.jobTrace, j.jobId = jobId ∧ j.total = n ∧ j.processed ≤ n ∧ statusOk j.status)
    (hev : ∀ e ∈ st.events, eventOk e)
    (hE : eventOk E)
    (hres : ∀ x ∈ st.db.results, x ∈ db0.results ∨ wellFormedResult x)
    (hlh : ∀ l, st.logs.head? = some l → l.dispatchedCold = true)
    (hlc : List.Chain' logStep st.logs)
    (hls : ∀ l ∈ st.logs, successNonSentinel l) :
    BatchOk jobId n db0 (finishRun jobId n st S E) := by
  have hfin : dbGetJob (updateJobStatus st.db S jobId) jobId =
      some ⟨jobId, S, n, st.processed⟩ := by
    have h2 := dbGetJob_updateJobStatus st.db S jobId _ hjob
    simpa using h2
  have htr : (finishRun jobId n st S E).jobTrace =
      st.jobTrace ++ [⟨jobId, S, n, st.processed⟩] := by
    show st.jobTrace ++ (dbGetJob (updateJobStatus st.db S jobId) jobId).toList = _
    rw [hfin]
    rfl
  refine { traceHead := ?_, traceChain := ?_, traceAll := ?_, finalJob := ?_,
           opened := rfl, released := rfl, eventsOk := ?_, resultsOk := ?_,
           logsHead := hlh, logsChain := hlc, logsSuccess := hls }
  · rw [htr]
    exact head?_append_left _ _ _ hhead
  · rw [htr, List.chain'_append]
    refine ⟨hchain, List.chain'_singleton _, ?_⟩
    intro x hx y hy
    simp at hy
    subst hy
    rw [hlast] at hx
    simp at hx
    subst hx
    exact ⟨Or.inr rfl, Or.inl rfl⟩
  · rw [htr]
    intro j hj
    simp at hj
    rcases hj with hj | hj
    · exact hall j hj
    · subst hj
      refine ⟨rfl, rfl, hp, ?_⟩
      rcases hS with h | h
      · exact Or.inr (Or.inl h)
      · exact Or.inr (Or.inr h)
  · exact ⟨⟨jobId, S, n, st.processed⟩, hfin, rfl, hS, hcompl, hfail⟩
  · intro e he
    have he' : e ∈ st.events ++ [E] := he
    rcases List.mem_append.mp he' with h | h
    · exact hev e h
    · simp at h
      subst h
      exact hE
  · intro x hx
    have hx' : x ∈ (updateJobStatus st.db S jobId).results := hx
    rw [updateJobStatus_results] at hx'
    exact hres x hx'

theorem runBatchLookup_main (jobId : String) (login : Option String) (envs : List RowEnv)
    (db0 : Db) (hlen : envs.length ≤ MAX_BATCH_SIZE) :
    BatchOk jobId envs.length db0 (runBatchLookup jobId login envs db0) := by
  have hn : ¬ envs.length > MAX_BATCH_SIZE := by omega
  unfold runBatchLookup
  rw [if_neg hn]
  cases login with
  | some msg =>
      apply finishOk
      · exact Or.inr rfl
      · intro h
        simp [initState] at h
      · intro _
        rfl
      · exact dbGetJob_insertJob_self db0 jobId "running" envs.length 0
      · exact Nat.zero_le _
      · rfl
      · exact List.chain'_singleton _
      · rfl
      · intro j hj
        simp [initState] at hj
        subst hj
        exact ⟨rfl, rfl, Nat.zero_le _, Or.inl rfl⟩
      · intro e he
        simp [initState] at he
        subst he
        exact jobStartedEvent_ok _
      · exact jobFailedEvent_ok _ _ _
      · intro x hx
        exact Or.inl hx
      · intro l hl
        simp [initState] at hl
      · exact List.chain'_nil
      · intro l hl
        simp [initState] at hl
  | none =>
      rcases hrun : runRows jobId envs.length envs 0 (initState jobId envs.length db0)
        with ⟨st, fz⟩
      have hinit_job : dbGetJob (initState jobId envs.length db0).db jobId =
          some ⟨jobId, "running", envs.length, 0⟩ :=
        dbGetJob_insertJob_self db0 jobId "running" envs.length 0
      have hcount : (initState jobId envs.length db0).processed + envs.length ≤ envs.length := by
        show 0 + envs.length ≤ envs.length
        omega
      have hlast0 : (initState jobId envs.length db0).jobTrace.getLast? =
          some ⟨jobId, "running", envs.length, 0⟩ := by
        show [startRec jobId envs.length].getLast? = _
        simp [startRec]
      have hall0 : ∀ j ∈ (initState jobId envs.length db0).jobTrace,
          j.jobId = jobId ∧ j.total = envs.length ∧ j.processed ≤ envs.length ∧
            statusOk j.status := by
        intro j hj
        simp [initState] at hj
        subst hj
        exact ⟨rfl, rfl, Nat.zero_le _, Or.inl rfl⟩
      have htrace := runRows_trace envs jobId envs.length 0 _ st fz hrun hinit_job hcount
        hlast0 (List.chain'_singleton _) rfl hall0
      obtain ⟨hjob, hp, hlast, hchain, hhead, hall⟩ := htrace
      have hev := runRows_events envs jobId envs.length 0 _ st fz hrun
        (by
          intro e he
          simp [initState] at he
          subst he
          exact jobStartedEvent_ok _)
      have hres := runRows_results envs jobId envs.length 0 _ st fz
        (fun x => x ∈ db0.results ∨ wellFormedResult x) hrun
        (fun x hx => Or.inr hx)
        (fun x hx => Or.inl hx)
      have hlogs := runRows_logs envs jobId envs.length 0 _ st fz hrun rfl
        List.chain'_nil
        (by intro l hl; simp [initState] at hl)
        (by intro l hl; simp [initState] at hl)
      obtain ⟨-, hlc, hlh, hls⟩ := hlogs
      cases fz with
      | none =>
          show BatchOk jobId envs.length db0
            (finishRun jobId envs.length st "completed"
              (jobCompletedEvent envs.length st.processed))
          exact finishOk jobId envs.length db0 st "completed"
            (jobCompletedEvent envs.length st.processed)
            (Or.inl rfl) (fun _ => rfl) (by intro h; exact absurd h (by decide))
            hjob hp hlast hchain hhead hall hev (jobCompletedEvent_ok _ _) hres hlh hlc hls
      | some msg =>
          show BatchOk jobId envs.length db0
            (if 0 < st.processed then
              finishRun jobId envs.length st "completed"
                (jobCompletedLateEvent envs.length st.processed)
            else
              finishRun jobId envs.length st "failed"
                (jobFailedEvent envs.length st.processed msg))
          by_cases hp0 : 0 < st.processed
          · rw [if_pos hp0]
            exact finishOk jobId envs.length db0 st "completed"
              (jobCompletedLateEvent envs.length st.processed)
              (Or.inl rfl) (fun _ => rfl) (by intro h; exact absurd h (by decide))
              hjob hp hlast hchain hhead hall hev (jobCompletedLateEvent_ok _ _) hres hlh hlc hls
          · rw [if_neg hp0]
            exact finishOk jobId envs.length db0 st "failed"
              (jobFailedEvent envs.length st.processed msg)
              (Or.inr rfl) (fun h => absurd h hp0) (fun _ => by omega)
              hjob hp hlast hchain hhead hall hev (jobFailedEvent_ok _ _ _) hres hlh hlc hls

/-! ## Claim theorems -/

/-- Claim C1: over a job's entire life the snapshot history starts at
`status = running`, `processed = 0`; every snapshot keeps the same
`jobId`, the immutable `total` (the submitted row count) and
`0 ≤ processed ≤ total`; and consecutive snapshots only ever increment
`processed` by one (after every row attempt, success or failure) and only
change `status` away from `running` — transitions are one-way, never
reversed. -/
theorem job_lifecycle_invariants (jobId : String) (login : Option String)
    (envs : List RowEnv) (db0 : Db) (hlen : envs.length ≤ MAX_BATCH_SIZE) :
    (runBatchLookup jobId login envs db0).jobTrace.head? =
      some (startRec jobId envs.length) ∧
    List.Chain' traceStep (runBatchLookup jobId login envs db0).jobTrace ∧
    (∀ j ∈ (runBatchLookup jobId login envs db0).jobTrace,
      j.jobId = jobId ∧ j.total = envs.length ∧ j.processed ≤ j.total ∧
        statusOk j.status) := by
  have h := runBatchLookup_main jobId login envs db0 hlen
  refine ⟨h.traceHead, h.traceChain, ?_⟩
  intro j hj
  obtain ⟨h1, h2, h3, h4⟩ := h.traceAll j hj
  exact ⟨h1, h2, by rw [h2]; exact h3, h4⟩

/-- Witness for C1 at a concrete empty batch. -/
theorem job_lifecycle_invariants_witness :
    ([] : List RowEnv).length ≤ MAX_BATCH_SIZE ∧
    (runBatchLookup "job-1" none [] emptyDb).jobTrace.head? = some (startRec "job-1" 0) :=
  ⟨by decide, (job_lifecycle_invariants "job-1" none [] emptyDb (by decide)).1⟩

/-- Claim C2 (code bug evaluated at the failing input): the file-based
store's `INSERT OR REPLACE INTO results` handler keys records by a fresh
auto-increment id, so a second write at the same `(jobId, rowIndex)` pair
appends a second record instead of replacing the first — after two writes
at `("job-8", 0)` the store holds two rows for that pair, not one. -/
theorem duplicate_result_write_bug :
    ((insertOrReplaceResult
        (insertOrReplaceResult emptyDb "job-8" 0 (some "A") none (some "On") (some "OK")
          none true)
        "job-8" 0 (some "A") none (some "Off") (some "Vacant") none true).results.filter
      (fun r => r.jobId == "job-8" && r.rowIndex == 0)).length = 2 := by decide

/-- Claim C3: on every non-rejected submission the job ends in a terminal
status: `completed` whenever `processed > 0` at the end (even if every
row recorded an error), `failed` only when zero rows were processed; and
the browser session is released in the final step on every outcome. -/
theorem batch_terminal_status (jobId : String) (login : Option String)
    (envs : List RowEnv) (db0 : Db) (hlen : envs.length ≤ MAX_BATCH_SIZE) :
    (runBatchLookup jobId login envs db0).sessionReleased = true ∧
    ∃ jfin, dbGetJob (runBatchLookup jobId login envs db0).db jobId = some jfin ∧
      (jfin.status = "completed" ∨ jfin.status = "failed") ∧
      (0 < jfin.processed → jfin.status = "completed") ∧
      (jfin.status = "failed" → jfin.processed = 0) := by
  have h := runBatchLookup_main jobId login envs db0 hlen
  obtain ⟨jfin, h1, _, h3, h4, h5⟩ := h.finalJob
  exact ⟨h.released, jfin, h1, h3, h4, h5⟩

/-- Witness for C3 at a concrete empty batch. -/
theorem batch_terminal_status_witness :
    ([] : List RowEnv).length ≤ MAX_BATCH_SIZE ∧
    (runBatchLookup "job-2" none [] emptyDb).sessionReleased = true :=
  ⟨by decide, (batch_terminal_status "job-2" none [] emptyDb (by decide)).1⟩

/-- Claim C4: the first row is always dispatched cold
(`needsFullFlow = true`); every later row is dispatched warm exactly when
the immediately preceding row's outcome was a success (`logStep`), and a
success outcome always means at least one status field differed from the
"Not found" sentinel — so a double-sentinel or exception row forces the
next row back to cold entry. -/
theorem entry_mode_transitions (jobId : String) (login : Option String)
    (envs : List RowEnv) (db0 : Db) (hlen : envs.length ≤ MAX_BATCH_SIZE) :
    (∀ l, (runBatchLookup jobId login envs db0).logs.head? = some l →
      l.dispatchedCold = true) ∧
    List.Chain' logStep (runBatchLookup jobId login envs db0).logs ∧
    (∀ l ∈ (runBatchLookup jobId login envs db0).logs, successNonSentinel l) := by
  have h := runBatchLookup_main jobId login envs db0 hlen
  exact ⟨h.logsHead, h.logsChain, h.logsSuccess⟩

/-- Witness for C4 at a concrete one-row batch. -/
theorem entry_mode_transitions_witness :
    [RowEnv.row "A" none none (ColdOutcome.reach ⟨some "On", none, none⟩)
        (WarmOutcome.linkSearchRaised "x")].length ≤ MAX_BATCH_SIZE ∧
    (runBatchLookup "job-3" none
        [RowEnv.row "A" none none (ColdOutcome.reach ⟨some "On", none, none⟩)
          (WarmOutcome.linkSearchRaised "x")] emptyDb).logs.head? =
      some ⟨0, true, Outcome.success ⟨"On", "Not found"⟩⟩ ∧
    (⟨0, true, Outcome.success ⟨"On", "Not found"⟩⟩ : RowLog).dispatchedCold = true :=
  ⟨by decide, by decide,
    (entry_mode_transitions "job-3" none
        [RowEnv.row "A" none none (ColdOutcome.reach ⟨some "On", none, none⟩)
          (WarmOutcome.linkSearchRaised "x")] emptyDb (by decide)).1
      ⟨0, true, Outcome.success ⟨"On", "Not found"⟩⟩ (by decide)⟩

/-- Claim C5: every result row the scheduler writes satisfies `error` XOR
statuses — either `error` is null and both status fields are set, or
`error` is set and both status fields are null (rows already in the store
before the run are exempt). -/
theorem result_rows_error_xor (jobId : String) (login : Option String)
    (envs : List RowEnv) (db0 : Db) (hlen : envs.length ≤ MAX_BATCH_SIZE) :
    ∀ x ∈ (runBatchLookup jobId login envs db0).db.results,
      x ∈ db0.results ∨ wellFormedResult x := by
  have h := runBatchLookup_main jobId login envs db0 hlen
  exact h.resultsOk

/-- Witness for C5 at a concrete one-row batch. -/
theorem result_rows_error_xor_witness :
    (⟨1, "job-4", 0, some "A", none, some "On", some "Not found", none, true⟩ :
        StoredResult) ∈
      (runBatchLookup "job-4" none
        [RowEnv.row "A" none none (ColdOutcome.reach ⟨some "On", none, none⟩)
          (WarmOutcome.linkSearchRaised "x")] emptyDb).db.results ∧
    ((⟨1, "job-4", 0, some "A", none, some "On", some "Not found", none, true⟩ :
          StoredResult) ∈ emptyDb.results ∨
      wellFormedResult
        ⟨1, "job-4", 0, some "A", none, some "On", some "Not found", none, true⟩) :=
  ⟨by decide,
    result_rows_error_xor "job-4" none
      [RowEnv.row "A" none none (ColdOutcome.reach ⟨some "On", none, none⟩)
        (WarmOutcome.linkSearchRaised "x")] emptyDb (by decide) _ (by decide)⟩

/-- Claim C6: the status readout is total and never raises; each field is
extracted independently (the meter field depends only on the meter
extraction, the property field only on the property extractions) and each
independently defaults to the "Not found" sentinel when its extraction
fails or yields empty text; in particular a single lookup reaching a page
with both fields absent returns the sentinel pair instead of throwing. -/
theorem status_readout_total (m ps pf : Option String) :
    (readStatuses ⟨none, ps, pf⟩).meterStatus = notFoundSentinel ∧
    (readStatuses ⟨some "", ps, pf⟩).meterStatus = notFoundSentinel ∧
    (readStatuses ⟨m, none, none⟩).propertyStatus = notFoundSentinel ∧
    (readStatuses ⟨m, some "", none⟩).propertyStatus = notFoundSentinel ∧
    (readStatuses ⟨m, ps, pf⟩).meterStatus = (readStatuses ⟨m, none, none⟩).meterStatus ∧
    (readStatuses ⟨m, ps, pf⟩).propertyStatus =
      (readStatuses ⟨none, ps, pf⟩).propertyStatus ∧
    (∀ (a : String) (u : Option String) (db0 : Db),
      (runSingleLookup a u SetupOutcome.ready none
          (ColdOutcome.reach ⟨none, none, none⟩) db0).result =
        Except.ok (a, u, { meterStatus := notFoundSentinel
                           propertyStatus := notFoundSentinel })) :=
  ⟨rfl, rfl, rfl, rfl, rfl, rfl, fun _ _ _ => rfl⟩

/-- Claim C7: a submission over the row cap is rejected synchronously with
the "Batch size too large" error before anything happens: the store is
untouched, no event is pushed, no row is processed, no job snapshot is
taken, and no browser session is opened. -/
theorem oversized_batch_rejected (jobId : String) (login : Option String)
    (envs : List RowEnv) (db0 : Db) (h : envs.length > MAX_BATCH_SIZE) :
    runBatchLookup jobId login envs db0 =
      { submit := Except.error batchTooLargeMsg, db := db0, events := [], logs := []
        jobTrace := [], sessionOpened := false, sessionReleased := false } := by
  unfold runBatchLookup
  rw [if_pos h]

/-- Witness for C7 at a concrete 51-row submission. -/
theorem oversized_batch_rejected_witness :
    (List.replicate 51 (RowEnv.fatal "boom")).length > MAX_BATCH_SIZE ∧
    runBatchLookup "job-5" none (List.replicate 51 (RowEnv.fatal "boom")) emptyDb =
      { submit := Except.error batchTooLargeMsg, db := emptyDb, events := [], logs := []
        jobTrace := [], sessionOpened := false, sessionReleased := false } :=
  ⟨by decide, oversized_batch_rejected "job-5" none _ emptyDb (by decide)⟩

/-- Claim C8 (amended): every event `runBatchLookup` pushes has a type in
{job_started, address_completed, address_failed, address_error,
job_completed, job_failed} and carries a processed count, a total and a
message; the original claim fails for the sibling entry points
`runBatchLookupWithJobId` / `runQueueBatchLookup`, whose events use other
types and can lack a processed count (see the counterexample). -/
theorem progress_events_contract (jobId : String) (login : Option String)
    (envs : List RowEnv) (db0 : Db) (hlen : envs.length ≤ MAX_BATCH_SIZE) :
    ∀ e ∈ (runBatchLookup jobId login envs db0).events, eventOk e := by
  have h := runBatchLookup_main jobId login envs db0 hlen
  exact h.eventsOk

/-- Witness for C8 at a concrete empty batch. -/
theorem progress_events_contract_witness :
    jobStartedEvent 0 ∈ (runBatchLookup "job-6" none [] emptyDb).events ∧
    eventOk (jobStartedEvent 0) :=
  ⟨by decide, progress_events_contract "job-6" none [] emptyDb (by decide) _ (by decide)⟩

/-- Counterexample to C8 as stated: the very first event
`runBatchLookupWithJobId` pushes has type `batch_started`, which is not in
the claimed set, and carries no `processed` count at all. -/
theorem progress_events_counterexample :
    runBatchLookupWithJobIdStart 3 1 1 =
      Except.ok { type := "batch_started", processed := none, total := some 3
                  message := some "Starting batch 1/1 with 3 addresses" } ∧
    ¬ allowedEventType "batch_started" ∧
    (none : Option Nat).isSome = false :=
  ⟨rfl, by decide, rfl⟩

/-- Claim C9 (code bug evaluated at the failing input):
`browser.newContext()` / `context.newPage()` (batch.js lines 13-14) run
outside the `try`/`finally`, so when one rejects the error propagates
while the launched browser is never closed — an exit path on which the
session is *not* released, contradicting the claim's (and spec §4.4's)
"guaranteed release on every exit path".  The claim's remaining parts do
hold and are proved alongside: the store is untouched on every path, every
`try`-covered path releases the session, and entry is always cold — the
result is exactly the cold flow's outcome. -/
theorem single_lookup_session_leak :
    (runSingleLookup "A" none (SetupOutcome.raised "newContext failed") none
        (ColdOutcome.reach ⟨none, none, none⟩) emptyDb).sessionOpened = true ∧
    (runSingleLookup "A" none (SetupOutcome.raised "newContext failed") none
        (ColdOutcome.reach ⟨none, none, none⟩) emptyDb).sessionReleased = false ∧
    (runSingleLookup "A" none (SetupOutcome.raised "newContext failed") none
        (ColdOutcome.reach ⟨none, none, none⟩) emptyDb).result =
      Except.error "newContext failed" ∧
    (∀ (a : String) (u : Option String) (s : SetupOutcome) (login : Option String)
        (c : ColdOutcome) (db0 : Db), (runSingleLookup a u s login c db0).db = db0) ∧
    (∀ (a : String) (u : Option String) (login : Option String) (c : ColdOutcome)
        (db0 : Db),
      (runSingleLookup a u SetupOutcome.ready login c db0).sessionReleased = true) ∧
    (∀ (a : String) (u : Option String) (p : StatusPage) (db0 : Db),
      (runSingleLookup a u SetupOutcome.ready none (ColdOutcome.reach p) db0).result =
        Except.ok (a, u, readStatuses p)) ∧
    (∀ (a : String) (u : Option String) (c : ColdOutcome) (db0 : Db) (m : String),
      (runSingleLookup a u SetupOutcome.ready (some m) c db0).result =
        Except.error m) ∧
    (∀ (a : String) (u : Option String) (db0 : Db) (m : String),
      (runSingleLookup a u SetupOutcome.ready none (ColdOutcome.throwBefore m)
          db0).result = Except.error m) :=
  ⟨rfl, rfl, rfl, fun _ _ s _ _ _ => by cases s <;> rfl, fun _ _ _ _ _ => rfl,
    fun _ _ _ _ => rfl, fun _ _ _ _ _ => rfl, fun _ _ _ _ => rfl⟩

/-- Claim C10 (amended): `processNextAddress` is total — it always returns
a pair with both fields non-empty (the sentinel pair or an honest
readout), falls back to the full post-login flow when the shortcut link
is absent, converts any exception (including one raised by the fallback
flow) into the sentinel pair — and hence a warm-dispatched row attempt can
only raise through the inter-row delay, never through the warm flow: with
no delay failure a warm attempt always returns `ok`. -/
theorem warm_flow_never_raises :
    (∀ w, (processNextAddress w).meterStatus ≠ "" ∧
      (processNextAddress w).propertyStatus ≠ "" ∧
      (processNextAddress w = sentinelResult ∨
        ∃ p, processNextAddress w = readStatuses p)) ∧
    (∀ p, processNextAddress (WarmOutcome.linkAbsent (ColdOutcome.reach p)) =
      readStatuses p) ∧
    (∀ m, processNextAddress (WarmOutcome.linkAbsent (ColdOutcome.throwBefore m)) =
      sentinelResult) ∧
    (∀ m, processNextAddress (WarmOutcome.linkSearchRaised m) = sentinelResult) ∧
    (∀ m, processNextAddress (WarmOutcome.linkFound (WarmInner.raised m)) =
      sentinelResult) ∧
    (∀ (i : Nat) (c : ColdOutcome) (w : WarmOutcome),
      rowAttempt i none false c w = Except.ok (processNextAddress w)) := by
  refine ⟨fun w => ⟨processNextAddress_meter_ne_empty w,
      processNextAddress_property_ne_empty w, processNextAddress_shape w⟩,
    fun _ => rfl, fun _ => rfl, fun _ => rfl, fun _ => rfl, fun i c w => ?_⟩
  have hnone : (if 0 < i then (none : Option String) else none) = none := by
    split <;> rfl
  unfold rowAttempt
  rw [hnone]
  rfl

/-- Witness for C10 at concrete warm outcomes. -/
theorem warm_flow_never_raises_witness :
    (processNextAddress (WarmOutcome.linkSearchRaised "boom")).meterStatus ≠ "" ∧
    processNextAddress (WarmOutcome.linkAbsent (ColdOutcome.throwBefore "boom")) =
      sentinelResult ∧
    rowAttempt 1 none false (ColdOutcome.throwBefore "x")
        (WarmOutcome.linkSearchRaised "boom") =
      Except.ok (processNextAddress (WarmOutcome.linkSearchRaised "boom")) :=
  ⟨(warm_flow_never_raises.1 (WarmOutcome.linkSearchRaised "boom")).1,
   warm_flow_never_raises.2.2.1 "boom",
   warm_flow_never_raises.2.2.2.2.2 1 (ColdOutcome.throwBefore "x")
     (WarmOutcome.linkSearchRaised "boom")⟩

/-- Counterexample to C10 as stated: a row dispatched in warm mode *can*
take the scheduler's exception branch — when the inter-row settle delay
(`page.waitForTimeout`, inside the row `try` and executed before the warm
flow) rejects, e.g. because the page has closed: row 1 below is dispatched
warm (row 0 succeeded) yet ends in the exception branch, and its stored
row carries the delay's error. -/
theorem warm_row_exception_counterexample :
    (runBatchLookup "job-7" none
        [RowEnv.row "A" none none (ColdOutcome.reach ⟨some "On", none, none⟩)
            (WarmOutcome.linkSearchRaised "x"),
          RowEnv.row "B" none (some "page closed")
            (ColdOutcome.reach ⟨some "On", none, none⟩)
            (WarmOutcome.linkFound (WarmInner.reach ⟨some "On", none, none⟩))]
        emptyDb).logs.get? 1 =
      some ⟨1, false, Outcome.exn "page closed"⟩ ∧
    ((runBatchLookup "job-7" none
        [RowEnv.row "A" none none (ColdOutcome.reach ⟨some "On", none, none⟩)
            (WarmOutcome.linkSearchRaised "x"),
          RowEnv.row "B" none (some "page closed")
            (ColdOutcome.reach ⟨some "On", none, none⟩)
            (WarmOutcome.linkFound (WarmInner.reach ⟨some "On", none, none⟩))]
        emptyDb).db.results.get? 1).map StoredResult.error =
      some (some "page closed") :=
  ⟨by decide, by decide⟩

end FplMeter
